import Mathlib

/-!
Verification of the unit-conversion and cost-aggregation engine of the
atelierculinairepof culinary-operations application.

The Python source is shallowly embedded: real (Python float) arithmetic is
modelled by `ℚ`, Python strings by `String`, raised `ValueError`s by
`Except String`, `None`-able columns by `Option`, and SQLAlchemy records by
plain structures.  Each definition mirrors one function of the source
(`units.py`, `logic.py`, `pages/logic.py`, `acpof_pages/menus.py`,
`acpof_pages/inventory.py`, `acpof_pages/imports/import_data.py`).
-/

/-- Python `str.lower()` restricted to the characters the app handles
(ASCII letters; accented letters are already lowercase in the sources). -/
def strLower (s : String) : String := ⟨s.data.map Char.toLower⟩

/-- The mass-unit factor table `weight = {"mg": 0.001, "g": 1.0, "kg": 1000.0}`
of `units.py: to_base_units`. -/
def weightFactor : String → Option ℚ
  | "mg" => some (1/1000)
  | "g" => some 1
  | "kg" => some 1000
  | _ => none

/-- The volume-unit factor table `volume = {"ml": 1.0, "l": 1000.0}`
of `units.py: to_base_units`. -/
def volumeFactor : String → Option ℚ
  | "ml" => some 1
  | "l" => some 1000
  | _ => none

/-- `units.py: to_base_units(quantity, unit, base_unit)`: converts a quantity
to the given base unit, raising `ValueError` on any unsupported pairing. -/
def to_base_units (quantity : ℚ) (unit base_unit : String) : Except String ℚ :=
  let u := strLower unit
  let b := strLower base_unit
  if b = "unit" then
    if u = "unit" ∨ u = "un" ∨ u = "pcs" ∨ u = "piece" ∨ u = "pièce" then
      .ok quantity
    else
      .error ("Unsupported unit " ++ u ++ " for base_unit unit")
  else if b = "g" then
    match weightFactor u with
    | some f => .ok (quantity * f)
    | none => .error ("Unsupported unit " ++ u ++ " for base_unit g")
  else if b = "ml" then
    match volumeFactor u with
    | some f => .ok (quantity * f)
    | none => .error ("Unsupported unit " ++ u ++ " for base_unit ml")
  else
    .error ("Unsupported base_unit " ++ b)

/-- `units.py: normalize_unit(u)`: lowercases and folds the fixed synonym
table, returning the (lowercased) token unchanged when it is not a key. -/
def normalize_unit (u : String) : String :=
  let u := strLower u
  match u with
  | "l" => "l"
  | "ml" => "ml"
  | "g" => "g"
  | "kg" => "kg"
  | "mg" => "mg"
  | "unit" => "unit"
  | "un" => "unit"
  | "pcs" => "unit"
  | _ => u

deriving instance DecidableEq for Except

/-- Whether an `Except` is an `error`. -/
def Except.isError : Except String α → Bool
  | .error _ => true
  | .ok _ => false

/-- A row of the `ingredients` table, restricted to the fields the engine
reads (`db.py: Ingredient`; `supplier`/`category` are nullable relations). -/
structure Ingredient where
  id : Nat
  name : String
  category : Option String
  base_unit : String
  price_per_base_unit : ℚ
  supplier : Option String
  deriving Repr, DecidableEq

/-- A row of `recipe_items` with its ingredient relation resolved
(`db.py: RecipeItem`). -/
structure RecipeItem where
  ingredient : Ingredient
  quantity : ℚ
  unit : String
  deriving Repr, DecidableEq

/-- A row of `recipes` with its items resolved (`db.py: Recipe`). -/
structure Recipe where
  servings : Int
  items : List RecipeItem
  deriving Repr, DecidableEq

/-- A row of `menu_items` with its recipe resolved (`db.py: MenuItem`);
`batches` is a nullable float column, `none` models SQL NULL. -/
structure MenuItem where
  recipe : Recipe
  batches : Option ℚ
  deriving Repr, DecidableEq

/-- A row of `menus` with its items resolved (`db.py: Menu`). -/
structure Menu where
  items : List MenuItem
  deriving Repr, DecidableEq

/-- The dictionary returned by `recipe_cost`. -/
structure CostResult where
  total_cost : ℚ
  per_serving : ℚ
  deriving Repr, DecidableEq

/-- `logic.py` / `pages/logic.py: compute_price_per_base_unit`: normalizes the
pack unit, converts the pack size to the base unit, raises when the converted
size is ≤ 0, and otherwise divides the purchase price by it. -/
def compute_price_per_base_unit (pack_size : ℚ) (pack_unit base_unit : String)
    (purchase_price : ℚ) : Except String ℚ :=
  match to_base_units pack_size (normalize_unit pack_unit) base_unit with
  | .error e => .error e
  | .ok pack_in_base =>
    if pack_in_base ≤ 0 then
      .error "Pack size must be > 0"
    else
      .ok (purchase_price / pack_in_base)

/-- The `for it in r.items: total += ...` accumulation loop inside
`recipe_cost`; the first failing conversion propagates as the raised error. -/
def recipeItemsCost (acc : ℚ) : List RecipeItem → Except String ℚ
  | [] => .ok acc
  | it :: rest =>
    match to_base_units it.quantity (normalize_unit it.unit) it.ingredient.base_unit with
    | .error e => .error e
    | .ok qty_base =>
      recipeItemsCost (acc + qty_base * it.ingredient.price_per_base_unit) rest

/-- `logic.py` / `pages/logic.py: recipe_cost(db, recipe_id)`; the
`db.get(Recipe, recipe_id)` lookup is modelled by the `Option Recipe`
argument (`none` when no record exists). -/
def recipe_cost (r? : Option Recipe) : Except String CostResult :=
  match r? with
  | none => .ok ⟨0, 0⟩
  | some r =>
    match recipeItemsCost 0 r.items with
    | .error e => .error e
    | .ok total => .ok ⟨total, total / ((max 1 r.servings : ℤ) : ℚ)⟩

/-- The per-ingredient record accumulated by `menu_aggregate_needs`. -/
structure NeedRec where
  name : String
  base_unit : String
  total_qty_base : ℚ
  supplier : String
  deriving Repr, DecidableEq

/-- The needs dictionary, keyed by ingredient id (insertion-ordered, as a
Python dict). -/
abbrev Needs := List (Nat × NeedRec)

/-- Python `dict.get` on an id-keyed dictionary. -/
def needsFind {α : Type} (k : Nat) : List (Nat × α) → Option α
  | [] => none
  | (k', v) :: rest => if k' = k then some v else needsFind k rest

/-- Python `dict.__setitem__` on an id-keyed dictionary: replace in place
when the key is present, append otherwise. -/
def needsInsert {α : Type} (k : Nat) (v : α) : List (Nat × α) → List (Nat × α)
  | [] => [(k, v)]
  | (k', v') :: rest =>
    if k' = k then (k', v) :: rest else (k', v') :: needsInsert k v rest

/-- The inner `for it in r.items` loop of `menu_aggregate_needs`: each item
is converted (a failure raising out of the whole computation), scaled by
`factor` and accumulated under its ingredient id. -/
def aggItems (factor : ℚ) (needs : Needs) : List RecipeItem → Except String Needs
  | [] => .ok needs
  | it :: rest =>
    match to_base_units it.quantity (normalize_unit it.unit) it.ingredient.base_unit with
    | .error e => .error e
    | .ok q =>
      let ing := it.ingredient
      let qty_base := q * factor
      let rec0 :=
        match needsFind ing.id needs with
        | some r => r
        | none => ⟨ing.name, ing.base_unit, 0, ing.supplier.getD ""⟩
      let rec1 : NeedRec :=
        { rec0 with total_qty_base := rec0.total_qty_base + qty_base }
      aggItems factor (needsInsert ing.id rec1 needs) rest

/-- The `factor = float(mi.batches or 1.0)` coercion of
`menu_aggregate_needs`: NULL and `0.0` are falsy in Python, so both fall
back to `1.0`. -/
def batchesFactor : Option ℚ → ℚ
  | none => 1
  | some b => if b = 0 then 1 else b

/-- The outer `for mi in m.items` loop of `menu_aggregate_needs`. -/
def aggMenuItems (needs : Needs) : List MenuItem → Except String Needs
  | [] => .ok needs
  | mi :: rest =>
    match aggItems (batchesFactor mi.batches) needs mi.recipe.items with
    | .error e => .error e
    | .ok needs' => aggMenuItems needs' rest

/-- `logic.py` / `pages/logic.py: menu_aggregate_needs(db, menu_id)`; the
`db.get(Menu, menu_id)` lookup is modelled by the `Option Menu` argument. -/
def menu_aggregate_needs (m? : Option Menu) : Except String Needs :=
  match m? with
  | none => .ok []
  | some m => aggMenuItems [] m.items

/-- Python `a or b` for strings: `b` when `a` is empty (falsy). -/
def strOr (a b : String) : String := if a = "" then b else a

/-- The per-ingredient record accumulated by the needs loop of
`acpof_pages/menus.py: menus_page`. -/
structure PageNeedRec where
  name : String
  base_unit : String
  total_base : ℚ
  supplier : String
  category : String
  deriving Repr, DecidableEq

/-- The needs dictionary of `menus_page`. -/
abbrev PageNeeds := List (Nat × PageNeedRec)

/-- The inner `for it in recipe_items` loop of the needs aggregation in
`menus_page`: items with non-positive quantity are skipped, a failing
conversion is caught (`try ... except: continue`) and the item ignored. -/
def pageAggItems (factor : ℚ) (needs : PageNeeds) : List RecipeItem → PageNeeds
  | [] => needs
  | it :: rest =>
    let ing := it.ingredient
    let qty := it.quantity
    let unit := normalize_unit (strOr it.unit (strOr ing.base_unit "g"))
    if qty ≤ 0 then pageAggItems factor needs rest
    else
      match to_base_units qty unit (strOr ing.base_unit "g") with
      | .error _ => pageAggItems factor needs rest
      | .ok base_qty =>
        let total_add := base_qty * factor
        let rec0 :=
          match needsFind ing.id needs with
          | some r => r
          | none =>
            ⟨ing.name, ing.base_unit, 0, ing.supplier.getD "", ing.category.getD ""⟩
        let rec1 : PageNeedRec := { rec0 with total_base := rec0.total_base + total_add }
        pageAggItems factor (needsInsert ing.id rec1 needs) rest

/-- The outer `for l in links` loop of the needs aggregation in `menus_page`:
`factor = float(l.batches or 0.0)` and the link is skipped when
`factor <= 0`. -/
def pageAggLinks (needs : PageNeeds) : List MenuItem → PageNeeds
  | [] => needs
  | l :: rest =>
    let factor : ℚ := (l.batches).getD 0
    if factor ≤ 0 then pageAggLinks needs rest
    else pageAggLinks (pageAggItems factor needs l.recipe.items) rest

/-- The needs aggregation of `acpof_pages/menus.py: menus_page` (section
"Liste des besoins (agrégée)") over the menu's links. -/
def menus_page_needs (links : List MenuItem) : PageNeeds :=
  pageAggLinks [] links

/-- The user-supplied part of a `StockMovement` row (quantity, unit and
movement type as entered on the inventory page). -/
structure MovementInput where
  qty : ℚ
  unit : String
  movement_type : String
  deriving Repr, DecidableEq

/-- `pages/logic.py: add_stock_movement` (persistence stripped): converts the
quantity to the ingredient's base unit, validates the movement type, and
returns the signed `quantity_base` stored on the new `StockMovement` row. -/
def add_stock_movement (ing : Ingredient) (m : MovementInput) : Except String ℚ :=
  match to_base_units m.qty (normalize_unit m.unit) ing.base_unit with
  | .error e => .error e
  | .ok qty_base =>
    if m.movement_type = "in" ∨ m.movement_type = "out" ∨ m.movement_type = "adjust" then
      .ok (if m.movement_type = "out" then -|qty_base|
           else if m.movement_type = "in" then |qty_base| else qty_base)
    else
      .error "movement_type must be in|out|adjust"

/-- Appending a sequence of movements for one ingredient through
`add_stock_movement`: the list of stored `quantity_base` values, or the
first raised error. -/
def applyMovements (ing : Ingredient) : List MovementInput → Except String (List ℚ)
  | [] => .ok []
  | m :: rest =>
    match add_stock_movement ing m with
    | .error e => .error e
    | .ok s =>
      match applyMovements ing rest with
      | .error e => .error e
      | .ok tail => .ok (s :: tail)

/-- `pages/logic.py: current_stock_map` restricted to one ingredient id: the
grouped sum of the stored `quantity_base` column over the ledger rows. -/
def current_stock (ledger : List (Nat × ℚ)) (ing_id : Nat) : ℚ :=
  ((ledger.filter (fun p => p.1 = ing_id)).map Prod.snd).sum

/-- The stock read back by `current_stock_map` for an ingredient after its
movements were recorded through `add_stock_movement`. -/
def stockAfter (ing : Ingredient) (ms : List MovementInput) : Except String ℚ :=
  match applyMovements ing ms with
  | .error e => .error e
  | .ok qs => .ok (current_stock (qs.map (fun q => (ing.id, q))) ing.id)

/-- The cost a single `RecipeItem` contributes per the spec's cost invariant:
converted quantity × `price_per_base_unit` (0 when not convertible; only read
under an all-items-convert hypothesis). -/
def specItemCost (it : RecipeItem) : ℚ :=
  match to_base_units it.quantity (normalize_unit it.unit) it.ingredient.base_unit with
  | .ok q => q * it.ingredient.price_per_base_unit
  | .error _ => 0

/-- The signed contribution of one movement per the spec's `currentStock`
sentence: quantity converted to the base unit, "in" contributing +|amount|,
"out" contributing −|amount|, "adjust" the signed amount as stored. -/
def specSignedContribution (ing : Ingredient) (m : MovementInput) : ℚ :=
  match to_base_units m.qty (normalize_unit m.unit) ing.base_unit with
  | .ok v =>
    if m.movement_type = "in" then |v|
    else if m.movement_type = "out" then -|v|
    else v
  | .error _ => 0

/-- Fixture: a mass-based ingredient priced at 1 per gram. -/
def ingFarine : Ingredient := ⟨1, "farine", none, "g", 1, none⟩

/-- Fixture: a mass-based ingredient priced at 0.01 per gram. -/
def ingSucre : Ingredient := ⟨2, "sucre", none, "g", 1/100, none⟩

/-- Fixture: the spec's worked cost example — one item of 500 g of an
ingredient priced 0.01/g, servings = 2. -/
def recipe500 : Recipe := ⟨2, [⟨ingSucre, 500, "g"⟩]⟩

/-- Fixture: a recipe with one convertible item and one cross-family item
(100 ml against a gram-based ingredient). -/
def mixedRecipe : Recipe := ⟨4, [⟨ingFarine, 200, "g"⟩, ⟨ingFarine, 100, "ml"⟩]⟩

/-- Fixture: a recipe with a single 100 g item. -/
def recipeG : Recipe := ⟨2, [⟨ingFarine, 100, "g"⟩]⟩

/-- Fixture: a menu whose only item has `batches = 0`. -/
def zeroBatchMenu : Menu := ⟨[⟨recipeG, some 0⟩]⟩

/-- Fixture: the same menu with `batches = 1`. -/
def oneBatchMenu : Menu := ⟨[⟨recipeG, some 1⟩]⟩

/-- Fixture: a menu over `mixedRecipe` (contains a non-convertible item). -/
def badUnitMenu : Menu := ⟨[⟨mixedRecipe, some 1⟩]⟩

/-- Fixture: the spec's stock example — in 1000 g, out 200 g, adjust −50 g. -/
def demoMovements : List MovementInput :=
  [⟨1000, "g", "in"⟩, ⟨200, "g", "out"⟩, ⟨-50, "g", "adjust"⟩]

/-- When every item converts, the `recipe_cost` accumulation loop returns the
starting accumulator plus the sum of per-item costs. -/
lemma recipeItemsCost_ok (items : List RecipeItem)
    (h : ∀ it ∈ items,
      (to_base_units it.quantity (normalize_unit it.unit) it.ingredient.base_unit).isError
        = false) :
    ∀ acc : ℚ, recipeItemsCost acc items = .ok (acc + (items.map specItemCost).sum) := by
  induction items with
  | nil => intro acc; simp [recipeItemsCost]
  | cons it rest ih =>
    intro acc
    have hhd := h it (List.mem_cons_self it rest)
    cases hq : to_base_units it.quantity (normalize_unit it.unit) it.ingredient.base_unit with
    | error e => rw [hq] at hhd; simp [Except.isError] at hhd
    | ok q =>
      have hrest : ∀ x ∈ rest,
          (to_base_units x.quantity (normalize_unit x.unit) x.ingredient.base_unit).isError
            = false :=
        fun x hx => h x (List.mem_cons_of_mem it hx)
      simp only [recipeItemsCost, hq, List.map_cons, List.sum_cons]
      rw [ih hrest]
      have : specItemCost it = q * it.ingredient.price_per_base_unit := by
        simp [specItemCost, hq]
      rw [this]
      ring_nf

/-- If any item fails to convert, the `recipe_cost` accumulation loop raises
(no skipping). -/
lemma recipeItemsCost_error (items : List RecipeItem)
    (h : ∃ it ∈ items,
      (to_base_units it.quantity (normalize_unit it.unit) it.ingredient.base_unit).isError
        = true) :
    ∀ acc : ℚ, (recipeItemsCost acc items).isError = true := by
  induction items with
  | nil => obtain ⟨it, hmem, _⟩ := h; simp at hmem
  | cons hd rest ih =>
    intro acc
    obtain ⟨it, hmem, hbad⟩ := h
    cases hq : to_base_units hd.quantity (normalize_unit hd.unit) hd.ingredient.base_unit with
    | error e => simp [recipeItemsCost, hq, Except.isError]
    | ok q =>
      rcases List.mem_cons.mp hmem with heq | hrest
      · subst heq; rw [hq] at hbad; simp [Except.isError] at hbad
      · simp only [recipeItemsCost, hq]
        exact ih ⟨it, hrest, hbad⟩ _

/-- If any item fails to convert, the inner `menu_aggregate_needs` loop
raises. -/
lemma aggItems_error (items : List RecipeItem)
    (h : ∃ it ∈ items,
      (to_base_units it.quantity (normalize_unit it.unit) it.ingredient.base_unit).isError
        = true) :
    ∀ (factor : ℚ) (needs : Needs), (aggItems factor needs items).isError = true := by
  induction items with
  | nil => obtain ⟨it, hmem, _⟩ := h; simp at hmem
  | cons hd rest ih =>
    intro factor needs
    obtain ⟨it, hmem, hbad⟩ := h
    cases hq : to_base_units hd.quantity (normalize_unit hd.unit) hd.ingredient.base_unit with
    | error e => simp [aggItems, hq, Except.isError]
    | ok q =>
      rcases List.mem_cons.mp hmem with heq | hrest
      · subst heq; rw [hq] at hbad; simp [Except.isError] at hbad
      · simp only [aggItems, hq]
        exact ih ⟨it, hrest, hbad⟩ _ _

/-- If any item of any menu item fails to convert, the outer
`menu_aggregate_needs` loop raises. -/
lemma aggMenuItems_error (mis : List MenuItem)
    (h : ∃ mi ∈ mis, ∃ it ∈ mi.recipe.items,
      (to_base_units it.quantity (normalize_unit it.unit) it.ingredient.base_unit).isError
        = true) :
    ∀ needs : Needs, (aggMenuItems needs mis).isError = true := by
  induction mis with
  | nil => obtain ⟨mi, hmem, _⟩ := h; simp at hmem
  | cons hd rest ih =>
    intro needs
    obtain ⟨mi, hmem, hbad⟩ := h
    rcases List.mem_cons.mp hmem with heq | hrest
    · subst heq
      have := aggItems_error mi.recipe.items hbad (batchesFactor mi.batches) needs
      cases hc : aggItems (batchesFactor mi.batches) needs mi.recipe.items with
      | error e => simp [aggMenuItems, hc, Except.isError]
      | ok needs' => rw [hc] at this; simp [Except.isError] at this
    · cases hc : aggItems (batchesFactor hd.batches) needs hd.recipe.items with
      | error e => simp [aggMenuItems, hc, Except.isError]
      | ok needs' =>
        simp only [aggMenuItems, hc]
        exact ih ⟨mi, hrest, hbad⟩ _

/-- Summing a single-ingredient ledger recovers the list sum. -/
lemma current_stock_const_id (i : Nat) (qs : List ℚ) :
    current_stock (qs.map (fun q => (i, q))) i = qs.sum := by
  induction qs with
  | nil => simp [current_stock]
  | cons q rest ih => simpa [current_stock, List.filter] using ih

/-- A successfully stored movement's `quantity_base` equals the spec's signed
contribution. -/
lemma add_stock_movement_spec (ing : Ingredient) (m : MovementInput) (s : ℚ)
    (h : add_stock_movement ing m = .ok s) : s = specSignedContribution ing m := by
  unfold add_stock_movement at h
  cases hq : to_base_units m.qty (normalize_unit m.unit) ing.base_unit with
  | error e => rw [hq] at h; simp at h
  | ok v =>
    rw [hq] at h
    unfold specSignedContribution
    rw [hq]
    by_cases hin : m.movement_type = "in"
    · simp [hin] at h ⊢; exact h.symm
    · by_cases hout : m.movement_type = "out"
      · simp [hout] at h ⊢; exact h.symm
      · by_cases hadj : m.movement_type = "adjust"
        · simp [hin, hout, hadj] at h ⊢; exact h.symm
        · simp [hin, hout, hadj] at h

/-- C1 counterexample: for the concrete recipe with one convertible item
(200 g) and one cross-family item (100 ml against a gram base),
`recipe_cost` aborts the whole computation with the conversion error instead
of skipping the item and returning the remaining sum. -/
theorem recipe_cost_aborts_on_inconvertible_item :
    recipe_cost (some mixedRecipe) = .error "Unsupported unit ml for base_unit g" := rfl

/-- C1 (amended): `recipe_cost` propagates the conversion error of any
`RecipeItem` whose (quantity, unit) cannot be converted to the referenced
ingredient's `base_unit`: the whole computation aborts with an error rather
than skipping the line item (the skip-on-failure behaviour exists only in
the menus-page needs aggregation). -/
theorem recipe_cost_error_on_inconvertible_item (r : Recipe)
    (h : ∃ it ∈ r.items,
      (to_base_units it.quantity (normalize_unit it.unit) it.ingredient.base_unit).isError
        = true) :
    (recipe_cost (some r)).isError = true := by
  have := recipeItemsCost_error r.items h 0
  cases hc : recipeItemsCost 0 r.items with
  | error e => simp [recipe_cost, hc, Except.isError]
  | ok total => rw [hc] at this; simp [Except.isError] at this

/-- Witness for C1's amended theorem at the concrete mixed recipe. -/
theorem recipe_cost_error_on_inconvertible_item_witness :
    (recipe_cost (some mixedRecipe)).isError = true :=
  recipe_cost_error_on_inconvertible_item mixedRecipe
    ⟨⟨ingFarine, 100, "ml"⟩, by decide, by decide⟩

/-- C10: a missing `Recipe` record yields zero costs and a missing `Menu`
record yields the empty needs mapping, with no error raised in either
case. -/
theorem missing_record_defaults :
    recipe_cost none = .ok ⟨0, 0⟩ ∧ menu_aggregate_needs none = .ok [] := ⟨rfl, rfl⟩

/-- C5: `compute_price_per_base_unit` divides the purchase price by the pack
size converted (via the normalized pack unit) to the base unit, raising
exactly when the converted pack size is ≤ 0; the spec's example
(1 kg pack, gram base, price 10) yields 0.01. -/
theorem compute_price_per_base_unit_spec :
    (∀ (ps : ℚ) (pu bu : String) (price v : ℚ),
        to_base_units ps (normalize_unit pu) bu = .ok v →
        (v ≤ 0 → compute_price_per_base_unit ps pu bu price = .error "Pack size must be > 0") ∧
        (0 < v → compute_price_per_base_unit ps pu bu price = .ok (price / v))) ∧
    compute_price_per_base_unit 1 "kg" "g" 10 = .ok (1/100) := by
  constructor
  · intro ps pu bu price v h
    unfold compute_price_per_base_unit
    rw [h]
    dsimp only
    constructor
    · intro hv; rw [if_pos hv]
    · intro hv; rw [if_neg (not_le.mpr hv)]
  · simp +decide [compute_price_per_base_unit, to_base_units, strLower, weightFactor,
      normalize_unit]
    norm_num

/-- Witness for C5 at the spec's example input. -/
theorem compute_price_per_base_unit_spec_witness :
    compute_price_per_base_unit 1 "kg" "g" 10 = .ok (10 / 1000) :=
  (compute_price_per_base_unit_spec.1 1 "kg" "g" 10 1000
    (by simp +decide [to_base_units, strLower, weightFactor, normalize_unit])).2
    (by norm_num)

/-- C4: when every item converts, `recipe_cost` returns the sum of converted
quantity × price-per-base-unit, with `per_serving` dividing by
`max 1 servings`; the spec's example (500 g at 0.01/g, servings 2) yields
total 5 and per-serving 2.5. -/
theorem recipe_cost_all_convertible :
    (∀ r : Recipe,
        (∀ it ∈ r.items,
          (to_base_units it.quantity (normalize_unit it.unit) it.ingredient.base_unit).isError
            = false) →
        recipe_cost (some r) =
          .ok ⟨(r.items.map specItemCost).sum,
               (r.items.map specItemCost).sum / ((max 1 r.servings : ℤ) : ℚ)⟩) ∧
    recipe_cost (some recipe500) = .ok ⟨5, 5/2⟩ := by
  constructor
  · intro r h
    simp only [recipe_cost]
    rw [recipeItemsCost_ok r.items h 0]
    norm_num
  · rw [show recipe_cost (some recipe500)
        = .ok ⟨0 + 500 * 1 * (1/100), (0 + 500 * 1 * (1/100)) / ((max 1 (2:ℤ) : ℤ) : ℚ)⟩
      from rfl]
    norm_num

/-- Witness for C4's universally quantified part at the spec's example
recipe. -/
theorem recipe_cost_all_convertible_witness :
    recipe_cost (some recipe500) =
      .ok ⟨(recipe500.items.map specItemCost).sum,
           (recipe500.items.map specItemCost).sum / ((max 1 recipe500.servings : ℤ) : ℚ)⟩ :=
  recipe_cost_all_convertible.1 recipe500 (by decide)

/-- C2 counterexample: in `menu_aggregate_needs` a `MenuItem` with
`batches = 0` is coerced to a full batch (`batches or 1.0`), so it
contributes 100 g — not nothing — for the concrete one-item menu; and a menu
containing a non-convertible `RecipeItem` aborts the aggregation with an
error instead of skipping the item. -/
theorem menu_aggregate_needs_zero_batches_counterexample :
    menu_aggregate_needs (some zeroBatchMenu) = menu_aggregate_needs (some oneBatchMenu) ∧
    menu_aggregate_needs (some zeroBatchMenu) = .ok [(1, ⟨"farine", "g", 100, ""⟩)] ∧
    (menu_aggregate_needs (some badUnitMenu)).isError = true := by
  refine ⟨rfl, ?_, by decide⟩
  rw [show menu_aggregate_needs (some zeroBatchMenu)
      = .ok [(1, ⟨"farine", "g", 0 + 100 * 1 * (if (0:ℚ) = 0 then 1 else 0), ""⟩)] from rfl]
  norm_num

/-- C2 (amended): in `menu_aggregate_needs`, `batches = 0` is treated exactly
like `batches = 1` (it contributes one full batch) and any non-convertible
`RecipeItem` aborts the whole aggregation with an error; the claimed
behaviour — batches ≤ 0 contributing nothing and failing conversions being
skipped — holds in the needs aggregation of `menus_page`
(`pageAggLinks`/`pageAggItems`). -/
theorem menu_needs_batches_and_skip :
    (∀ (r : Recipe) (rest : List MenuItem),
        menu_aggregate_needs (some ⟨⟨r, some 0⟩ :: rest⟩) =
          menu_aggregate_needs (some ⟨⟨r, some 1⟩ :: rest⟩)) ∧
    (∀ m : Menu,
        (∃ mi ∈ m.items, ∃ it ∈ mi.recipe.items,
          (to_base_units it.quantity (normalize_unit it.unit) it.ingredient.base_unit).isError
            = true) →
        (menu_aggregate_needs (some m)).isError = true) ∧
    (∀ (r : Recipe) (b : ℚ) (rest : List MenuItem) (needs : PageNeeds), b ≤ 0 →
        pageAggLinks needs (⟨r, some b⟩ :: rest) = pageAggLinks needs rest) ∧
    (∀ (it : RecipeItem) (rest : List RecipeItem) (factor : ℚ) (needs : PageNeeds),
        (to_base_units it.quantity
            (normalize_unit (strOr it.unit (strOr it.ingredient.base_unit "g")))
            (strOr it.ingredient.base_unit "g")).isError = true →
        pageAggItems factor needs (it :: rest) = pageAggItems factor needs rest) := by
  refine ⟨?_, ?_, ?_, ?_⟩
  · intro r rest
    have hb : batchesFactor (some 0) = batchesFactor (some 1) := by
      simp [batchesFactor]
    simp only [menu_aggregate_needs, aggMenuItems, hb]
  · intro m h
    exact aggMenuItems_error m.items h []
  · intro r b rest needs hb
    simp only [pageAggLinks, Option.getD]
    rw [if_pos hb]
  · intro it rest factor needs h
    cases hq : to_base_units it.quantity
        (normalize_unit (strOr it.unit (strOr it.ingredient.base_unit "g")))
        (strOr it.ingredient.base_unit "g") with
    | error e =>
      simp only [pageAggItems, hq]
      by_cases hqty : it.quantity ≤ 0 <;> simp [hqty]
    | ok v => rw [hq] at h; simp [Except.isError] at h

/-- Witness for C2's amended theorem: the error-abort part at the concrete
bad-unit menu and the menus-page skip parts at concrete inputs. -/
theorem menu_needs_batches_and_skip_witness :
    (menu_aggregate_needs (some badUnitMenu)).isError = true ∧
    pageAggLinks [] [⟨recipeG, some (-2)⟩] = pageAggLinks [] [] ∧
    pageAggItems 1 [] [⟨ingFarine, 100, "ml"⟩] = pageAggItems 1 [] [] :=
  ⟨menu_needs_batches_and_skip.2.1 badUnitMenu
      ⟨⟨mixedRecipe, some 1⟩, by decide, ⟨ingFarine, 100, "ml"⟩, by decide, by decide⟩,
    menu_needs_batches_and_skip.2.2.1 recipeG (-2) [] [] (by norm_num),
    menu_needs_batches_and_skip.2.2.2 ⟨ingFarine, 100, "ml"⟩ [] 1 [] (by decide)⟩

/-- C3: `currentStock` (the grouped sum of stored `quantity_base` values) for
an ingredient whose movements were all recorded through `add_stock_movement`
equals the sum of the spec's signed converted contributions ("in" → +|a|,
"out" → −|a|, "adjust" → the signed amount); the spec's example ledger
[in 1000 g, out 200 g, adjust −50 g] yields 750 g. -/
theorem current_stock_is_signed_sum :
    (∀ (ing : Ingredient) (ms : List MovementInput) (qs : List ℚ),
        applyMovements ing ms = .ok qs →
        current_stock (qs.map (fun q => (ing.id, q))) ing.id =
          (ms.map (specSignedContribution ing)).sum) ∧
    stockAfter ingFarine demoMovements = .ok 750 := by
  have key : ∀ (ing : Ingredient) (ms : List MovementInput) (qs : List ℚ),
      applyMovements ing ms = .ok qs →
      qs.sum = (ms.map (specSignedContribution ing)).sum := by
    intro ing ms
    induction ms with
    | nil => intro qs h; simp [applyMovements] at h; subst h; simp
    | cons m rest ih =>
      intro qs h
      cases hm : add_stock_movement ing m with
      | error e => simp [applyMovements, hm] at h
      | ok s =>
        cases ht : applyMovements ing rest with
        | error e => simp [applyMovements, hm, ht] at h
        | ok tail =>
          simp only [applyMovements, hm, ht] at h
          cases h
          simp only [List.sum_cons, List.map_cons]
          rw [ih tail ht, add_stock_movement_spec ing m s hm]
  constructor
  · intro ing ms qs h
    rw [current_stock_const_id, key ing ms qs h]
  · show stockAfter ingFarine demoMovements = .ok 750
    rw [show stockAfter ingFarine demoMovements
        = .ok (current_stock
            ([|(1000:ℚ) * 1|, -|(200:ℚ) * 1|, (-50:ℚ) * 1].map (fun q => (1, q))) 1)
      from rfl]
    rw [current_stock_const_id]
    norm_num

/-- Witness for C3's universally quantified part at the spec's example
ledger. -/
theorem current_stock_is_signed_sum_witness :
    current_stock
        (([|(1000:ℚ) * 1|, -|(200:ℚ) * 1|, (-50:ℚ) * 1]).map (fun q => (ingFarine.id, q)))
        ingFarine.id
      = (demoMovements.map (specSignedContribution ingFarine)).sum :=
  current_stock_is_signed_sum.1 ingFarine demoMovements _ rfl

/-- The whitespace characters relevant to `_coerce_float`'s `str.strip()`
calls and its regex class `[\s  ]` (ASCII whitespace plus NBSP and
narrow NBSP). -/
def isPyWhitespace (c : Char) : Bool :=
  c = ' ' ∨ c = '\t' ∨ c = '\n' ∨ c = '\r' ∨ c = '\x0b' ∨ c = '\x0c' ∨
    c = ' ' ∨ c = ' '

/-- Python `str.strip()` (no argument): remove leading and trailing
whitespace. -/
def pyStrip (s : String) : String :=
  ⟨((s.data.dropWhile isPyWhitespace).reverse.dropWhile isPyWhitespace).reverse⟩

/-- The placeholder tokens of `_coerce_float` that map to "no value". -/
def placeholders : List String :=
  ["-", "—", "na", "n/a", "nd", "s/o", "s.o.", "null", "none"]

/-- `re.sub(r"[\s  ]+", "", txt)`: delete every whitespace
character. -/
def removeAllWhitespace (s : String) : String :=
  ⟨s.data.filter (fun c => ¬ isPyWhitespace c)⟩

/-- `txt.replace("$","").replace("€","").replace("£","")`. -/
def removeCurrencySymbols (s : String) : String :=
  ⟨s.data.filter (fun c => ¬ (c = '$' ∨ c = '€' ∨ c = '£'))⟩

/-- `re.sub(r"(cad|usd|eur)$", "", txt, flags=re.IGNORECASE)`: drop one
end-anchored currency-code suffix. -/
def dropCurrencySuffix (s : String) : String :=
  let n := s.data.length
  let tail := strLower ⟨s.data.drop (n - 3)⟩
  if 3 ≤ n ∧ (tail = "cad" ∨ tail = "usd" ∨ tail = "eur") then
    ⟨s.data.take (n - 3)⟩
  else s

/-- `txt.replace("%", "")`. -/
def removePercent (s : String) : String :=
  ⟨s.data.filter (fun c => ¬ c = '%')⟩

/-- Python `str.rfind` of a single character: index of the rightmost
occurrence, −1 when absent. -/
def rfindChar (c : Char) (l : List Char) : Int :=
  match l with
  | [] => -1
  | x :: rest =>
    let r := rfindChar c rest
    if r ≥ 0 then r + 1 else if x = c then 0 else -1

/-- `txt.replace(a, b)` at character granularity. -/
def replaceChar (a b : Char) (l : List Char) : List Char :=
  l.map (fun c => if c = a then b else c)

/-- `txt.replace(a, "")` at character granularity. -/
def eraseAllChar (a : Char) (l : List Char) : List Char :=
  l.filter (fun c => ¬ c = a)

/-- The European branch of `_coerce_float`'s separator handling: '.' is a
thousands separator (stripped), ',' becomes the decimal point. -/
def commaAsDecimal (t : String) : String :=
  ⟨replaceChar ',' '.' (eraseAllChar '.' t.data)⟩

/-- The US branch of `_coerce_float`'s separator handling: ',' is a
thousands separator (stripped). -/
def stripCommas (t : String) : String :=
  ⟨eraseAllChar ',' t.data⟩

/-- The separator resolution block of `_coerce_float`: with both ',' and '.'
present the rightmost one is the decimal point; a lone ',' becomes '.'. -/
def resolveSeparators (t : String) : String :=
  let l := t.data
  if l.contains ',' ∧ l.contains '.' then
    if rfindChar ',' l > rfindChar '.' l then commaAsDecimal t else stripCommas t
  else if l.contains ',' ∧ ¬ l.contains '.' then ⟨replaceChar ',' '.' l⟩
  else t

/-- The syntactic decomposition of a Python float literal accepted by
`float(...)`: sign, integer digits, fractional digits (as numerator and
power-of-ten denominator) and exponent.  Non-finite literals (`inf`,
`nan`) and digit-group underscores are outside this ℚ embedding; no input
reaching `float()` in the modelled pipelines uses them. -/
structure PyNum where
  neg : Bool
  ip : ℕ
  fracNum : ℕ
  fracDen : ℕ
  ex : ℤ
  deriving Repr, DecidableEq

/-- The rational value denoted by a decomposed float literal. -/
def PyNum.val (n : PyNum) : ℚ :=
  (if n.neg then -1 else 1) * ((n.ip : ℚ) + (n.fracNum : ℚ) / (n.fracDen : ℚ)) * (10 : ℚ) ^ n.ex

/-- Decimal value of a digit run. -/
def digitsVal (l : List Char) : ℕ :=
  l.foldl (fun a c => 10 * a + (c.toNat - 48)) 0

/-- The exponent part after `e`/`E` in a float literal. -/
def parseExp (l : List Char) : Option ℤ :=
  let neg : Bool :=
    match l with
    | '-' :: _ => true
    | _ => false
  let rest : List Char :=
    match l with
    | '+' :: r => r
    | '-' :: r => r
    | r => r
  if rest ≠ [] ∧ rest.all (·.isDigit) then
    some (if neg then -(digitsVal rest : ℤ) else (digitsVal rest : ℤ))
  else none

/-- Parse a string as a Python float literal (finite decimal forms). -/
def pyParse (s : String) : Option PyNum :=
  let l := s.data
  let neg : Bool :=
    match l with
    | '-' :: _ => true
    | _ => false
  let l1 : List Char :=
    match l with
    | '+' :: r => r
    | '-' :: r => r
    | r => r
  let ip := l1.takeWhile (·.isDigit)
  let l2 := l1.dropWhile (·.isDigit)
  match l2 with
  | [] => if ip = [] then none else some ⟨neg, digitsVal ip, 0, 1, 0⟩
  | '.' :: l3 =>
    let fp := l3.takeWhile (·.isDigit)
    let l4 := l3.dropWhile (·.isDigit)
    if ip = [] ∧ fp = [] then none
    else
      match l4 with
      | [] => some ⟨neg, digitsVal ip, digitsVal fp, 10 ^ fp.length, 0⟩
      | c :: l5 =>
        if c = 'e' ∨ c = 'E' then
          match parseExp l5 with
          | some ex => some ⟨neg, digitsVal ip, digitsVal fp, 10 ^ fp.length, ex⟩
          | none => none
        else none
  | c :: l5 =>
    if (c = 'e' ∨ c = 'E') ∧ ¬ ip = [] then
      match parseExp l5 with
      | some ex => some ⟨neg, digitsVal ip, 0, 1, ex⟩
      | none => none
    else none

/-- Python `float(s)` on the finite decimal forms (see `PyNum`). -/
def pyFloat (s : String) : Option ℚ :=
  (pyParse s).map PyNum.val

/-- The residual test of `_coerce_float`:
`txt == "" or txt in {".", "-.", "+."}`. -/
def isLoneToken (t : String) : Bool :=
  t = "" ∨ t = "." ∨ t = "-." ∨ t = "+."

/-- The character filter of `_coerce_float`'s final fallback:
`re.sub(r"[^0-9\.\-+]", "", txt)`. -/
def fallbackResidual (t : String) : String :=
  ⟨t.data.filter (fun c => c.isDigit ∨ c = '.' ∨ c = '-' ∨ c = '+')⟩

/-- The `except ValueError` fallback of `_coerce_float`: strip disallowed
characters; a lone sign/point residual is "no value"; an unparseable
residual raises. -/
def coerceFallback (value t : String) : Except String (Option ℚ) :=
  let t2 := fallbackResidual t
  if isLoneToken t2 then .ok none
  else
    match pyFloat t2 with
    | some v => .ok (some v)
    | none => .error ("Valeur numerique invalide: " ++ value)

/-- The tail of `_coerce_float` after separator resolution: final strip,
lone-token test, `float(...)` attempt and fallback. -/
def finishParse (value t : String) : Except String (Option ℚ) :=
  let t6 := pyStrip t
  if isLoneToken t6 then .ok none
  else
    match pyFloat t6 with
    | some v => .ok (some v)
    | none => coerceFallback value t6

/-- The cleaning stage of `_coerce_float` applied to the stripped text:
whitespace removal, currency symbols, currency-code suffix, percent sign. -/
def cleanNumericText (txt : String) : String :=
  removePercent (dropCurrencySuffix (removeCurrencySymbols (removeAllWhitespace txt)))

/-- `acpof_pages/imports/import_data.py: _coerce_float(value)` for string
inputs (`pd.isna` and already-numeric inputs are handled before the string
pipeline and are outside this embedding). -/
def coerce_float (value : String) : Except String (Option ℚ) :=
  let txt := pyStrip value
  if txt = "" then .ok none
  else if strLower txt ∈ placeholders then .ok none
  else finishParse value (resolveSeparators (cleanNumericText txt))

/-- The text on which `_coerce_float` attempts its first `float(...)` call:
stripped input, cleaned, separators resolved, stripped again. -/
def resolvedText (value : String) : String :=
  pyStrip (resolveSeparators (cleanNumericText (pyStrip value)))

/-- A non-empty non-placeholder input reaches the parsing tail on its
cleaned, separator-resolved text. -/
lemma coerce_float_eq_finish (value : String)
    (h1 : pyStrip value ≠ "")
    (h2 : strLower (pyStrip value) ∉ placeholders) :
    coerce_float value
      = finishParse value (resolveSeparators (cleanNumericText (pyStrip value))) := by
  simp only [coerce_float]
  rw [if_neg h1, if_neg h2]

/-- Evaluation helper: when the resolved text is not a lone token and parses
as a float literal, `_coerce_float` returns its value. -/
lemma coerce_float_eval (value : String) (pn : PyNum)
    (h1 : pyStrip value ≠ "")
    (h2 : strLower (pyStrip value) ∉ placeholders)
    (h3 : isLoneToken (resolvedText value) = false)
    (h4 : pyParse (resolvedText value) = some pn) :
    coerce_float value = .ok (some pn.val) := by
  rw [coerce_float_eq_finish value h1 h2]
  unfold finishParse
  rw [show pyStrip (resolveSeparators (cleanNumericText (pyStrip value)))
      = resolvedText value from rfl]
  rw [if_neg (by rw [h3]; exact Bool.false_ne_true)]
  rw [show pyFloat (resolvedText value) = some pn.val by
    rw [pyFloat, h4, Option.map_some']]

/-- C6: when the cleaned text contains both ',' and '.', `_coerce_float`
treats the rightmost of the two as the decimal point and strips the other as
a thousands separator; the spec's examples "1 234,56", "1,234.56", "4,6",
"12.5%" and "$10.00 CAD" parse to 1234.56, 1234.56, 4.6, 12.5 and 10. -/
theorem coerce_float_rightmost_separator :
    (∀ value : String,
        pyStrip value ≠ "" →
        strLower (pyStrip value) ∉ placeholders →
        (cleanNumericText (pyStrip value)).data.contains ',' = true →
        (cleanNumericText (pyStrip value)).data.contains '.' = true →
        (rfindChar ',' (cleanNumericText (pyStrip value)).data >
            rfindChar '.' (cleanNumericText (pyStrip value)).data →
          coerce_float value
            = finishParse value (commaAsDecimal (cleanNumericText (pyStrip value)))) ∧
        (rfindChar '.' (cleanNumericText (pyStrip value)).data >
            rfindChar ',' (cleanNumericText (pyStrip value)).data →
          coerce_float value
            = finishParse value (stripCommas (cleanNumericText (pyStrip value))))) ∧
    coerce_float "1 234,56" = .ok (some 1234.56) ∧
    coerce_float "1,234.56" = .ok (some 1234.56) ∧
    coerce_float "4,6" = .ok (some 4.6) ∧
    coerce_float "12.5%" = .ok (some 12.5) ∧
    coerce_float "$10.00 CAD" = .ok (some 10) := by
  refine ⟨?_, ?_, ?_, ?_, ?_, ?_⟩
  · intro value h1 h2 hc hd
    rw [coerce_float_eq_finish value h1 h2]
    constructor
    · intro hlt
      have hres : resolveSeparators (cleanNumericText (pyStrip value))
          = commaAsDecimal (cleanNumericText (pyStrip value)) := by
        simp only [resolveSeparators]
        rw [if_pos ⟨hc, hd⟩, if_pos hlt]
      rw [hres]
    · intro hgt
      have hres : resolveSeparators (cleanNumericText (pyStrip value))
          = stripCommas (cleanNumericText (pyStrip value)) := by
        simp only [resolveSeparators]
        rw [if_pos ⟨hc, hd⟩, if_neg (lt_asymm hgt)]
      rw [hres]
  · rw [coerce_float_eval "1 234,56" ⟨false, 1234, 56, 100, 0⟩
      (by decide) (by decide) (by decide) (by decide)]
    norm_num [PyNum.val]
  · rw [coerce_float_eval "1,234.56" ⟨false, 1234, 56, 100, 0⟩
      (by decide) (by decide) (by decide) (by decide)]
    norm_num [PyNum.val]
  · rw [coerce_float_eval "4,6" ⟨false, 4, 6, 10, 0⟩
      (by decide) (by decide) (by decide) (by decide)]
    norm_num [PyNum.val]
  · rw [coerce_float_eval "12.5%" ⟨false, 12, 5, 10, 0⟩
      (by decide) (by decide) (by decide) (by decide)]
    norm_num [PyNum.val]
  · rw [coerce_float_eval "$10.00 CAD" ⟨false, 10, 0, 100, 0⟩
      (by decide) (by decide) (by decide) (by decide)]
    norm_num [PyNum.val]

/-- Witness for C6's universally quantified part at the US-style example. -/
theorem coerce_float_rightmost_separator_witness :
    coerce_float "1,234.56"
      = finishParse "1,234.56" (stripCommas (cleanNumericText (pyStrip "1,234.56"))) :=
  (coerce_float_rightmost_separator.1 "1,234.56"
    (by decide) (by decide) (by decide) (by decide)).2 (by decide)

/-- C7 counterexample: for input "x-" the fallback residual is the lone sign
"-", which the claim says yields null; `_coerce_float` instead raises the
invalid-number error (its null set is only {"", ".", "-.", "+."}). -/
theorem coerce_float_lone_sign_raises :
    fallbackResidual (resolvedText "x-") = "-" ∧
    coerce_float "x-" = .error "Valeur numerique invalide: x-" :=
  ⟨by decide, by decide⟩

/-- C7 (amended): `_coerce_float` maps the placeholder tokens to null; in
its final fallback it strips every character that is not a digit, '.', '-'
or '+', returns null when the residual is empty, ".", "-." or "+.", returns
the parsed value when the residual parses, and raises the invalid-number
error exactly when the residual is otherwise unparseable (including a bare
sign such as "-"). -/
theorem coerce_float_placeholders_and_fallback :
    (∀ value : String, strLower (pyStrip value) ∈ placeholders →
        coerce_float value = .ok none) ∧
    (∀ value : String,
        pyStrip value ≠ "" →
        strLower (pyStrip value) ∉ placeholders →
        isLoneToken (resolvedText value) = false →
        pyFloat (resolvedText value) = none →
        (isLoneToken (fallbackResidual (resolvedText value)) = true →
            coerce_float value = .ok none) ∧
        (isLoneToken (fallbackResidual (resolvedText value)) = false →
          ∀ v : ℚ, pyFloat (fallbackResidual (resolvedText value)) = some v →
            coerce_float value = .ok (some v)) ∧
        (isLoneToken (fallbackResidual (resolvedText value)) = false →
          pyFloat (fallbackResidual (resolvedText value)) = none →
            coerce_float value = .error ("Valeur numerique invalide: " ++ value))) := by
  constructor
  · intro value h
    have h1 : pyStrip value ≠ "" := by
      intro e
      rw [e] at h
      revert h
      decide
    simp only [coerce_float]
    rw [if_neg h1, if_pos h]
  · intro value h1 h2 h3 h4
    have hbase : coerce_float value = coerceFallback value (resolvedText value) := by
      rw [coerce_float_eq_finish value h1 h2]
      simp only [finishParse]
      rw [show pyStrip (resolveSeparators (cleanNumericText (pyStrip value)))
          = resolvedText value from rfl]
      simp [h3, h4]
    refine ⟨?_, ?_, ?_⟩
    · intro hres
      rw [hbase]
      simp [coerceFallback, hres]
    · intro hres v hv
      rw [hbase]
      simp [coerceFallback, hres, hv]
    · intro hres hnone
      rw [hbase]
      simp [coerceFallback, hres, hnone]

/-- Witness for C7's amended theorem at concrete inputs: a placeholder, a
lone-point residual, and a bare-sign residual. -/
theorem coerce_float_placeholders_and_fallback_witness :
    coerce_float "n/a" = .ok none ∧
    coerce_float "x." = .ok none ∧
    coerce_float "x-" = .error ("Valeur numerique invalide: " ++ "x-") :=
  ⟨coerce_float_placeholders_and_fallback.1 "n/a" (by decide),
   (coerce_float_placeholders_and_fallback.2 "x."
      (by decide) (by decide) (by decide) (by decide)).1 (by decide),
   (coerce_float_placeholders_and_fallback.2 "x-"
      (by decide) (by decide) (by decide) (by decide)).2.2
      (by decide) (by decide)⟩

/-- Accent folding as performed by `_clean_unit_text`'s NFKD decomposition
plus combining-mark removal, restricted to the accented letters occurring in
the app's unit vocabulary (both cases, folded to the lowercase base letter
since `lower()` runs first in the source). -/
def deaccentChar (c : Char) : Char :=
  match c with
  | 'à' | 'â' | 'ä' | 'á' | 'ã' | 'À' | 'Â' | 'Ä' | 'Á' | 'Ã' => 'a'
  | 'é' | 'è' | 'ê' | 'ë' | 'É' | 'È' | 'Ê' | 'Ë' => 'e'
  | 'î' | 'ï' | 'í' | 'Î' | 'Ï' | 'Í' => 'i'
  | 'ô' | 'ö' | 'ó' | 'Ô' | 'Ö' | 'Ó' => 'o'
  | 'ù' | 'û' | 'ü' | 'ú' | 'Ù' | 'Û' | 'Ü' | 'Ú' => 'u'
  | 'ç' | 'Ç' => 'c'
  | c => c

/-- Collapse each whitespace run to a single space
(`re.sub(r"\s+", " ", s)`). -/
def collapseWs : List Char → List Char
  | [] => []
  | [c] => if isPyWhitespace c then [' '] else [c]
  | c :: d :: rest =>
    if isPyWhitespace c ∧ isPyWhitespace d then collapseWs (d :: rest)
    else (if isPyWhitespace c then ' ' else c) :: collapseWs (d :: rest)

/-- The synonym table of `_clean_unit_text` (applied after cleaning). -/
def unitSynonym (s : String) : String :=
  match s with
  | "unite" => "unit"
  | "u" => "unit"
  | "piece" => "unit"
  | "pc" => "unit"
  | "pz" => "unit"
  | "portion" => "unit"
  | "paquet" => "unit"
  | "caisse" => "unit"
  | "boite" => "unit"
  | "boîte" => "unit"
  | "bte" => "unit"
  | "sac" => "unit"
  | "sachet" => "unit"
  | "litre" => "l"
  | "liter" => "l"
  | "millilitre" => "ml"
  | "milliliter" => "ml"
  | "gramme" => "g"
  | "kilogramme" => "kg"
  | "lbs" => "lb"
  | t => t

/-- `acpof_pages/imports/import_data.py: _clean_unit_text(s)`: strip, lower,
fold accents, drop quote characters, strip a leading run of slash, dash and
whitespace characters, collapse whitespace, then apply the synonym table. -/
def clean_unit_text (s : String) : String :=
  let s1 := strLower (pyStrip s)
  let s2 := s1.data.map deaccentChar
  let s3 := s2.filter (fun c => ¬ (c = '’' ∨ c = Char.ofNat 39 ∨ c = Char.ofNat 96))
  let s4 := s3.dropWhile (fun c => c = '/' ∨ c = '-' ∨ c = '–' ∨ c = '—' ∨ isPyWhitespace c)
  let s5 := pyStrip ⟨collapseWs s4⟩
  unitSynonym s5

/-- The `_UNIT_COUNT` set of `import_data.py`. -/
def countUnits : List String :=
  ["unit", "unite", "u", "piece", "pièce", "pc", "pz",
   "portion", "paquet", "caisse", "boite", "boîte", "bte", "sac", "sachet"]

/-- The `_UNIT_MASS` set of `import_data.py`. -/
def massUnits : List String := ["g", "kg", "lb"]

/-- The `_UNIT_VOL` set of `import_data.py`. -/
def volUnits : List String := ["ml", "l"]

/-- `import_data.py: _unit_family(u)`: `count`, `mass`, `vol` or none. -/
def unit_family (u : String) : Option String :=
  if u = "" then none
  else if u ∈ countUnits then some "count"
  else if u ∈ massUnits then some "mass"
  else if u ∈ volUnits then some "vol"
  else none

/-- `import_data.py: _canon_base_unit(u)`: force a base unit into
{g, ml, unit}, or the empty string for an unresolvable token. -/
def canon_base_unit (u : String) : String :=
  match unit_family u with
  | some "mass" => "g"
  | some "vol" => "ml"
  | some "count" => "unit"
  | _ => ""

/-- `acpof_pages/imports/import_data.py: _reconcile_units(base_u, pack_u,
pack_size)`: harmonize the base and pack units (the `pack_size` argument is
unused by the logic, as in the source). -/
def reconcile_units (base_u pack_u : String) (pack_size : Option ℚ) : String × String :=
  let bc := clean_unit_text base_u
  let pcl := clean_unit_text pack_u
  let b0 := canon_base_unit bc
  let pf0 := unit_family pcl
  let b1 := if b0 = "" then (if pf0 ≠ none then canon_base_unit pcl else "unit") else b0
  let bf1 := unit_family b1
  let p1 := if pcl = "" then b1 else pcl
  let pf1 := if pcl = "" then bf1 else pf0
  let p2 := if pf1 = some "count" ∧ (bf1 = some "mass" ∨ bf1 = some "vol") then b1 else p1
  let pf2 := if pf1 = some "count" ∧ (bf1 = some "mass" ∨ bf1 = some "vol") then bf1 else pf1
  let b2 := if bf1 = some "count" ∧ (pf2 = some "mass" ∨ pf2 = some "vol")
    then canon_base_unit p2 else b1
  let bf2 := unit_family b2
  let b3 := if (bf2 = some "mass" ∨ bf2 = some "vol") ∧ (pf2 = some "mass" ∨ pf2 = some "vol")
      ∧ bf2 ≠ pf2
    then canon_base_unit p2 else b2
  let norm_base := if ¬ b3 = "" then normalize_unit b3 else "unit"
  let norm_pack := if ¬ p2 = "" then normalize_unit p2 else norm_base
  (norm_base, norm_pack)

/-- An unknown token has no mass factor. -/
lemma weightFactor_none (u : String) (h1 : u ≠ "mg") (h2 : u ≠ "g") (h3 : u ≠ "kg") :
    weightFactor u = none := by
  unfold weightFactor
  split <;> simp_all

/-- An unknown token has no volume factor. -/
lemma volumeFactor_none (u : String) (h1 : u ≠ "ml") (h2 : u ≠ "l") :
    volumeFactor u = none := by
  unfold volumeFactor
  split <;> simp_all

/-- A token with a unit family is non-empty. -/
lemma unit_family_ne_empty (u f : String) (h : unit_family u = some f) : u ≠ "" := by
  intro e
  have h0 : unit_family "" = none := by decide
  rw [e, h0] at h
  exact Option.noConfusion h

/-- The only families are count, mass and vol. -/
lemma unit_family_cases (u f : String) (h : unit_family u = some f) :
    f = "count" ∨ f = "mass" ∨ f = "vol" := by
  unfold unit_family at h
  split_ifs at h <;> simp_all

/-- Base-from-pack reconciliation when the pack token is a mass unit. -/
lemma reconcile_case_mass (rawBase rawPack : String) (ps : Option ℚ)
    (hbase : canon_base_unit (clean_unit_text rawBase) = "")
    (hf : unit_family (clean_unit_text rawPack) = some "mass") :
    reconcile_units rawBase rawPack ps =
      (canon_base_unit (clean_unit_text rawPack),
       normalize_unit (clean_unit_text rawPack)) := by
  have hc : canon_base_unit (clean_unit_text rawPack) = "g" := by
    simp [canon_base_unit, hf]
  have hne : clean_unit_text rawPack ≠ "" := unit_family_ne_empty _ _ hf
  have hg : unit_family "g" = some "mass" := by decide
  simp only [reconcile_units]
  rw [hbase, hc]
  simp +decide [hf, hne, hg]

/-- Base-from-pack reconciliation when the pack token is a volume unit. -/
lemma reconcile_case_vol (rawBase rawPack : String) (ps : Option ℚ)
    (hbase : canon_base_unit (clean_unit_text rawBase) = "")
    (hf : unit_family (clean_unit_text rawPack) = some "vol") :
    reconcile_units rawBase rawPack ps =
      (canon_base_unit (clean_unit_text rawPack),
       normalize_unit (clean_unit_text rawPack)) := by
  have hc : canon_base_unit (clean_unit_text rawPack) = "ml" := by
    simp [canon_base_unit, hf]
  have hne : clean_unit_text rawPack ≠ "" := unit_family_ne_empty _ _ hf
  have hg : unit_family "ml" = some "vol" := by decide
  simp only [reconcile_units]
  rw [hbase, hc]
  simp +decide [hf, hne, hg]

/-- Base-from-pack reconciliation when the pack token is a count unit. -/
lemma reconcile_case_count (rawBase rawPack : String) (ps : Option ℚ)
    (hbase : canon_base_unit (clean_unit_text rawBase) = "")
    (hf : unit_family (clean_unit_text rawPack) = some "count") :
    reconcile_units rawBase rawPack ps =
      (canon_base_unit (clean_unit_text rawPack),
       normalize_unit (clean_unit_text rawPack)) := by
  have hc : canon_base_unit (clean_unit_text rawPack) = "unit" := by
    simp [canon_base_unit, hf]
  have hne : clean_unit_text rawPack ≠ "" := unit_family_ne_empty _ _ hf
  have hg : unit_family "unit" = some "count" := by decide
  simp only [reconcile_units]
  rw [hbase, hc]
  simp +decide [hf, hne, hg]

/-- When both raw units are unresolvable the base falls back to "unit". -/
lemma reconcile_none_case (rawBase rawPack : String) (ps : Option ℚ)
    (hbase : canon_base_unit (clean_unit_text rawBase) = "")
    (hf : unit_family (clean_unit_text rawPack) = none) :
    (reconcile_units rawBase rawPack ps).1 = "unit" := by
  simp only [reconcile_units]
  rw [hbase]
  by_cases hne : clean_unit_text rawPack = ""
  · simp +decide [hf, hne]
  · simp +decide [hf, hne]

/-- C9: with an empty or unresolvable base string, `_reconcile_units`
derives the base unit from the pack unit's family when the pack unit
resolves, and otherwise defaults the base to "unit"; in particular
reconcile("", "kg") yields base "g" and preserves the pack unit "kg". -/
theorem reconcile_units_base_fallback :
    (∀ (rawBase rawPack : String) (ps : Option ℚ),
        canon_base_unit (clean_unit_text rawBase) = "" →
        (∀ f : String, unit_family (clean_unit_text rawPack) = some f →
            reconcile_units rawBase rawPack ps =
              (canon_base_unit (clean_unit_text rawPack),
               normalize_unit (clean_unit_text rawPack))) ∧
        (unit_family (clean_unit_text rawPack) = none →
            (reconcile_units rawBase rawPack ps).1 = "unit")) ∧
    reconcile_units "" "kg" none = ("g", "kg") := by
  constructor
  · intro rawBase rawPack ps hbase
    constructor
    · intro f hf
      rcases unit_family_cases _ _ hf with h | h | h <;> subst h
      · exact reconcile_case_count rawBase rawPack ps hbase hf
      · exact reconcile_case_mass rawBase rawPack ps hbase hf
      · exact reconcile_case_vol rawBase rawPack ps hbase hf
    · intro hf
      exact reconcile_none_case rawBase rawPack ps hbase hf
  · decide

/-- Witness for C9 at the spec's example (empty base, pack "kg"). -/
theorem reconcile_units_base_fallback_witness :
    reconcile_units "" "kg" none =
      (canon_base_unit (clean_unit_text "kg"), normalize_unit (clean_unit_text "kg")) :=
  (reconcile_units_base_fallback.1 "" "kg" none (by decide)).1 "mass" (by decide)

/-- C8 counterexample: the token "xyz" survives cleaning unchanged, belongs
to no unit family, yet `normalize_unit` silently returns the unrecognized
token itself — it cannot produce an error at all. -/
theorem normalize_unit_silent_passthrough :
    clean_unit_text "xyz" = "xyz" ∧
    normalize_unit "xyz" = "xyz" ∧
    unit_family "xyz" = none := by decide

/-- C8 (amended): `normalize_unit` returns an unrecognized token (lowercased)
unchanged rather than raising; the hard error surfaces only downstream, when
`to_base_units` is called with a token outside every unit family. -/
theorem normalize_unit_unknown_passthrough :
    (∀ u : String,
        strLower u ∉ (["l", "ml", "g", "kg", "mg", "unit", "un", "pcs"] : List String) →
        normalize_unit u = strLower u) ∧
    (∀ (q : ℚ) (u b : String),
        strLower u ∉
            (["unit", "un", "pcs", "piece", "pièce", "mg", "g", "kg", "ml", "l"] :
              List String) →
        (to_base_units q u b).isError = true) := by
  constructor
  · intro u h
    simp only [List.mem_cons, List.not_mem_nil, or_false, not_or] at h
    unfold normalize_unit
    dsimp only
    split <;> simp_all
  · intro q u b h
    simp only [List.mem_cons, List.not_mem_nil, or_false, not_or] at h
    obtain ⟨n1, n2, n3, n4, n5, n6, n7, n8, n9, n10⟩ := h
    simp only [to_base_units]
    by_cases hb1 : strLower b = "unit"
    · rw [if_pos hb1, if_neg (by tauto)]
      rfl
    · by_cases hb2 : strLower b = "g"
      · rw [if_neg hb1, if_pos hb2, weightFactor_none _ n6 n7 n8]
        rfl
      · by_cases hb3 : strLower b = "ml"
        · rw [if_neg hb1, if_neg hb2, if_pos hb3, volumeFactor_none _ n9 n10]
          rfl
        · rw [if_neg hb1, if_neg hb2, if_neg hb3]
          rfl

/-- Witness for C8's amended theorem at the unknown token "xyz". -/
theorem normalize_unit_unknown_passthrough_witness :
    normalize_unit "xyz" = strLower "xyz" ∧ (to_base_units 1 "xyz" "g").isError = true :=
  ⟨normalize_unit_unknown_passthrough.1 "xyz" (by decide),
   normalize_unit_unknown_passthrough.2 1 "xyz" "g" (by decide)⟩
